import Mathlib

/-!
Shallow embedding of `src/autoscroll.c` (the autoscroll viewer) and proofs
about its pagination, timer loop, renderer and argument processing.

Machine integers of the C program are modelled as `Nat`/`Int`; `time_to_scroll`
is an `Int` because the program deliberately lets it reach `-1`.  The
floating-point `ceil((length - 1.0) / ws_col)` of line 361 is modelled as exact
natural ceiling division, which agrees with the `double` computation on every
line length and terminal width a terminal can produce.
-/

namespace Autoscroll

/-- One line of the input file, as produced by `getline` (autoscroll.c
lines 47–52 and 209–253): the raw characters including the trailing newline
when the line has one.  The C struct's `length` field always equals the number
of characters, so it is derived here as `Line.len`. -/
structure Line where
  content : List Char
deriving DecidableEq

/-- The `length` field of `struct Line` (includes the `\n`, per `getline`). -/
def Line.len (l : Line) : Nat := l.content.length

/-- `rows_needed` from autoscroll.c lines 361–367:
`ceil((length - 1.0) / ws_col)`, overridden to `1` when the line is a bare
newline (`length == 1`). -/
def rowsNeeded (l : Line) (cols : Nat) : Nat :=
  if l.len = 1 then 1 else (l.len - 1 + (cols - 1)) / cols

/-- The number of characters of a line that are visible on screen: everything
except a trailing newline. -/
def visibleCount (l : Line) : Nat :=
  if l.content.getLast? = some '\n' then l.len - 1 else l.len

/-- Natural ceiling division `⌈a / b⌉`. -/
def ceilDiv (a b : Nat) : Nat := (a + b - 1) / b

/-- The body-printing loop of autoscroll.c lines 353–391.  `phys` is
`physical_lines_printed`.  Walks the store from the head; a line is printed
only when its wrapped rows still fit within the first `rows - 1` terminal
rows.  `none` models the null dereference of `line_walker->length` when the
loop is entered with an empty store (line 361 runs with `line_walker == NULL`).
The comparisons are on `Int` exactly as the C `int` comparisons. -/
def paginateAux (rows cols : Nat) : List Line → Nat → Option (List Line × Nat)
  | [], phys =>
    if (phys : Int) < (rows : Int) - 1 then none else some ([], phys)
  | l :: rest, phys =>
    if (phys : Int) < (rows : Int) - 1 then
      if (phys : Int) + (rowsNeeded l cols : Int) ≤ (rows : Int) - 1 then
        match rest with
        | [] => some ([l], phys + rowsNeeded l cols)
        | _ :: _ =>
          match paginateAux rows cols rest (phys + rowsNeeded l cols) with
          | none => none
          | some (d, p) => some (l :: d, p)
      else some ([], phys)
    else some ([], phys)

/-- The whole pagination pass of one render: the loop of lines 353–391 started
with `physical_lines_printed = 0` (reset at line 452 of the previous tick).
Returns the displayed prefix of the store and the physical rows it consumed. -/
def paginate (rows cols : Nat) (ls : List Line) : Option (List Line × Nat) :=
  paginateAux rows cols ls 0

/-- Terminal geometry (`ioctl TIOCGWINSZ`, sampled once) and the `-s`
interval. -/
structure Config where
  rows : Nat
  cols : Nat
  seconds : Nat
deriving DecidableEq

/-- The mutable state of the signal loop of `main`:
`head` (the remaining Line Store), `start_line_number`, `display_and_exit`,
`paused` and `time_to_scroll` (autoscroll.c lines 275–289). -/
structure State where
  lines : List Line
  startLine : Nat
  displayAndExit : Bool
  paused : Bool
  timeToScroll : Int
deriving DecidableEq

/-- Everything one SIGALRM handling writes to the terminal: the printed body
lines, the row the status bar is printed on (`ESC[%d;1f` with `ws_row`),
the text of the status bar, and the column the cursor is finally parked at
(`ESC[%dG` with `ws_col - 2`). -/
structure Frame where
  body : List Line
  statusRow : Nat
  statusText : List Char
  cursorCol : Int
deriving DecidableEq

/-- Result of handling one SIGALRM: `exited` models `raise(SIGQUIT)` followed
by the terminating `default` case (clear screen, `exit(EXIT_SUCCESS)`);
`crashed` models the null-pointer dereference reachable with an empty Line
Store; `rendered s f` is a completed redraw leaving state `s`. -/
inductive TickResult where
  | exited : TickResult
  | crashed : TickResult
  | rendered : State → Frame → TickResult
deriving DecidableEq

def TickResult.stateOf : TickResult → Option State
  | .rendered s _ => some s
  | _ => none

def TickResult.frameOf : TickResult → Option Frame
  | .rendered _ f => some f
  | _ => none

def TickResult.bodyOf (r : TickResult) : Option (List Line) :=
  r.frameOf.map Frame.body

/-- Two-digit zero-padded decimal field, as produced by `strftime` for
`%H`, `%M`, `%S`. -/
def pad2 (n : Nat) : List Char := [Nat.digitChar (n / 10), Nat.digitChar (n % 10)]

/-- Models `strftime(buf, 9, "%T", localtime(time(NULL)))` of lines 409–435:
the wall-clock instant `now` (seconds) formatted as `HH:MM:SS`. -/
def hhmmss (now : Nat) : List Char :=
  pad2 (now / 3600 % 24) ++ ':' :: (pad2 (now / 60 % 60) ++ ':' :: pad2 (now % 60))

/-- Decimal digits of a natural number, as `printf("%d", ·)` prints it. -/
def natChars (n : Nat) : List Char := Nat.toDigits 10 n

/-- `printf("%d", ·)` on a possibly negative `int`. -/
def intChars (i : Int) : List Char :=
  if i < 0 then '-' :: natChars i.natAbs else natChars i.natAbs

/-- The literal ` Lines: ` piece of the status-bar format string
`"%s Lines: %d-%d"` (line 437). -/
def linesLabel : List Char := [' ', 'L', 'i', 'n', 'e', 's', ':', ' ']

/-- The render tail of one SIGALRM handling (autoscroll.c lines 351–453):
paginate from the current head, latch `display_and_exit` per the condition of
lines 393–401 (with C's `&&`-over-`||` precedence:
`(walker == NULL || phys == R-1 && walker->next == NULL) && start == 1`,
where `walker == NULL` is `d.length = lines.length` and
`walker->next == NULL` with `walker` non-null is `lines.length = d.length + 1`),
then print the status bar `"%s Lines: %d-%d"` on row `ws_row` and park the
cursor at column `ws_col - 2`. -/
def renderPhase (cfg : Config) (now : Nat) (s : State) : TickResult :=
  match paginate cfg.rows cfg.cols s.lines with
  | none => TickResult.crashed
  | some (d, p) =>
    let dae :=
      if (d.length = s.lines.length ∨
            ((p : Int) = (cfg.rows : Int) - 1 ∧ s.lines.length = d.length + 1)) ∧
          s.startLine = 1
      then true else s.displayAndExit
    TickResult.rendered
      { s with displayAndExit := dae }
      { body := d
        statusRow := cfg.rows
        statusText := hhmmss now ++ linesLabel ++
          intChars (s.startLine : Int) ++ '-' ::
          intChars ((s.startLine : Int) + (d.length : Int) - 1)
        cursorCol := (cfg.cols : Int) - 2 }

/-- One handling of SIGALRM (autoscroll.c lines 309–455), with `now` the
wall-clock value sampled by `time(NULL)` during this render.  If not paused,
`time_to_scroll` is decremented; a scroll pops the front line unless
`display_and_exit` was latched (then the program quits) or the store runs out
(then the program quits); the redraw always follows. -/
def alarmStep (cfg : Config) (now : Nat) (s : State) : TickResult :=
  if s.paused then renderPhase cfg now s
  else
    if (s.timeToScroll - 1 = 0 ∧ 1 < s.startLine) ∨ s.timeToScroll - 1 = -1 then
      if s.displayAndExit then TickResult.exited
      else
        match s.lines with
        | [] => TickResult.crashed
        | _ :: [] => TickResult.exited
        | _ :: r :: rs =>
          renderPhase cfg now
            { s with lines := r :: rs
                     startLine := s.startLine + 1
                     timeToScroll := (cfg.seconds : Int) }
    else renderPhase cfg now { s with timeToScroll := s.timeToScroll - 1 }

/-- `case SIGTSTP` (line 457): pause. -/
def tstpStep (s : State) : State := { s with paused := true }

/-- `case SIGINT` (line 461): resume. -/
def intStep (s : State) : State := { s with paused := false }

/-- The state on entry to the signal loop (lines 275–293): whole file loaded,
first line number 1, nothing latched, countdown at the configured interval. -/
def initState (fileLines : List Line) (seconds : Nat) : State :=
  { lines := fileLines
    startLine := 1
    displayAndExit := false
    paused := false
    timeToScroll := (seconds : Int) }

/-- Run `fuel` consecutive SIGALRM deliveries, counting completed renders.
The second component is `some true` when the program exited cleanly,
`some false` when it crashed, `none` when the fuel ran out first. -/
def runAlarms (cfg : Config) (now : Nat) : Nat → State → Nat × Option Bool
  | 0, _ => (0, none)
  | Nat.succ fuel, s =>
    match alarmStep cfg now s with
    | TickResult.exited => (0, some true)
    | TickResult.crashed => (0, some false)
    | TickResult.rendered s2 _ =>
      let r := runAlarms cfg now fuel s2
      (r.1 + 1, r.2)

/-- The fatal argument errors of autoscroll.c lines 95–179: each one prints a
diagnostic (with the usage text) to stderr and `exit(EXIT_FAILURE)`s. -/
inductive ArgError where
  | duplicateS : ArgError
  | missingArg : ArgError
  | unknownOpt : ArgError
  | missingPath : ArgError
  | nonInteger : ArgError
  | outOfRange : ArgError
deriving DecidableEq

/-- The `getopt(argc, argv, ":s:")` loop of lines 95–130, modelled as POSIX
getopt over the arguments after the program name: option clusters are consumed
left to right, `s` takes its argument from the rest of its cluster or from the
next argument, a second `-s` is the duplicate error of line 104, a missing
argument is the `:` case of line 120, any other option character is the `?`
case of line 125, and scanning stops at `--`, at a lone `-`, or at the first
operand.  Returns the saved `s_value` (if any) and the remaining operands. -/
def optLoop : List (List Char) → Option (List Char) →
    Except ArgError (Option (List Char) × List (List Char))
  | [], sv => Except.ok (sv, [])
  | arg :: rest, sv =>
    match arg with
    | '-' :: [] => Except.ok (sv, arg :: rest)
    | '-' :: '-' :: [] => Except.ok (sv, rest)
    | '-' :: c :: tailChars =>
      if c = 's' then
        match tailChars with
        | [] =>
          match rest with
          | [] => Except.error ArgError.missingArg
          | v :: rest2 =>
            match sv with
            | some _ => Except.error ArgError.duplicateS
            | none => optLoop rest2 (some v)
        | _ :: _ =>
          match sv with
          | some _ => Except.error ArgError.duplicateS
          | none => optLoop rest (some tailChars)
      else Except.error ArgError.unknownOpt
    | _ => Except.ok (sv, arg :: rest)

/-- `isspace` for the characters `strtol` skips. -/
def isSpaceCh (c : Char) : Bool :=
  c = ' ' ∨ c = '\t' ∨ c = '\n' ∨ c = '\x0b' ∨ c = '\x0c' ∨ c = '\r'

/-- Value of one digit character, up to base 16. -/
def digitValue? (b : Nat) (c : Char) : Option Nat :=
  let v :=
    if '0' ≤ c ∧ c ≤ '9' then some (c.toNat - '0'.toNat)
    else if 'a' ≤ c ∧ c ≤ 'f' then some (c.toNat - 'a'.toNat + 10)
    else if 'A' ≤ c ∧ c ≤ 'F' then some (c.toNat - 'A'.toNat + 10)
    else none
  match v with
  | some d => if d < b then some d else none
  | none => none

/-- Consume leading digits of base `b`, accumulating their value; returns the
value and the unconsumed suffix. -/
def takeDigits (b : Nat) : List Char → Nat → Nat × List Char
  | [], acc => (acc, [])
  | c :: cs, acc =>
    match digitValue? b c with
    | some d => takeDigits b cs (acc * b + d)
    | none => (acc, c :: cs)

/-- Digit run with sign applied; if no digit is consumed, `strtol` leaves
`endptr` at the original `nptr`, modelled by returning the whole input
`orig` as the unconsumed suffix. -/
def strtolRun (b : Nat) (t orig : List Char) (neg : Bool) : Int × List Char :=
  let r := takeDigits b t 0
  if r.2.length = t.length then (0, orig)
  else ((if neg then -(r.1 : Int) else (r.1 : Int)), r.2)

/-- Models `strtol(s_value, &end_ptr, 0)` of line 156: optional whitespace and
sign, then hexadecimal after `0x`/`0X` (falling back to the sole `0` when no
hex digit follows), octal after a leading `0`, decimal otherwise.  Returns the
value and the suffix `end_ptr` points at; the program then demands that suffix
be empty (line 164). -/
def strtol0 (s : List Char) : Int × List Char :=
  let body := s.dropWhile isSpaceCh
  let signed : Bool × List Char :=
    match body with
    | '-' :: r => (true, r)
    | '+' :: r => (false, r)
    | _ => (false, body)
  match signed.2 with
  | '0' :: 'x' :: t =>
    if (t.head?.bind (digitValue? 16)).isSome then strtolRun 16 t s signed.1
    else (0, 'x' :: t)
  | '0' :: 'X' :: t =>
    if (t.head?.bind (digitValue? 16)).isSome then strtolRun 16 t s signed.1
    else (0, 'X' :: t)
  | '0' :: t => strtolRun 8 ('0' :: t) s signed.1
  | t => strtolRun 10 t s signed.1

/-- Successful outcome of command-line processing: the interval in seconds and
the operand saved as `file_path`. -/
structure ParseOk where
  seconds : Int
  path : List Char
deriving DecidableEq

/-- Command-line processing of autoscroll.c lines 88–182, on the arguments
after the program name: run the getopt loop; a missing operand is the error of
line 135 (checked before the seconds are examined); the first operand becomes
`file_path` (line 146); with no `-s` the interval defaults to 1 (line 149);
otherwise `strtol` base 0 must consume the whole value (line 164) and the
result must lie in `[1, 59]` (lines 171–172). -/
def parseArgs (args : List (List Char)) : Except ArgError ParseOk :=
  match optLoop args none with
  | Except.error e => Except.error e
  | Except.ok (sv, operands) =>
    match operands with
    | [] => Except.error ArgError.missingPath
    | path :: _ =>
      match sv with
      | none => Except.ok ⟨1, path⟩
      | some v =>
        let r := strtol0 v
        if r.2 ≠ [] then Except.error ArgError.nonInteger
        else if r.1 < 1 ∨ 59 < r.1 then Except.error ArgError.outOfRange
        else Except.ok ⟨r.1, path⟩

/-- What `main` does with the command line before touching the file system:
every argument error exits at once (`usageExit`), and only a fully validated
command line reaches the `fopen(file_path, "r")` of line 188 (`opensFile`). -/
inductive MainResult where
  | usageExit : ArgError → MainResult
  | opensFile : List Char → Int → MainResult
deriving DecidableEq

/-- The argument phase of `main`: lines 88–182 run strictly before the file
reading section of lines 184–259. -/
def mainArgPhase (args : List (List Char)) : MainResult :=
  match parseArgs args with
  | Except.error e => MainResult.usageExit e
  | Except.ok r => MainResult.opensFile r.path r.seconds

/-! ## Helper lemmas -/

/-- A line produced by `getline` is never empty, so it always needs at least
one physical row once the terminal has at least one column. -/
lemma rowsNeeded_pos (l : Line) (cols : Nat) (hc : 1 ≤ cols)
    (hl : l.content ≠ []) : 1 ≤ rowsNeeded l cols := by
  unfold rowsNeeded
  split
  · exact le_refl 1
  · rename_i hne
    have h1 : 1 ≤ l.len := by
      unfold Line.len
      exact Nat.one_le_iff_ne_zero.mpr (by simpa using hl)
    have h2 : 2 ≤ l.len := by omega
    rw [Nat.one_le_div_iff (by omega)]
    omega

/-- Full specification of the pagination loop: the displayed lines form a
prefix of the store, the physical row count is the sum of the per-line wrapped
row counts, it never exceeds `rows - 1`, and a remaining line was excluded
either because it would overflow the budget or because the budget was already
exhausted. -/
lemma paginateAux_spec (R C : Nat) :
    ∀ (ls : List Line) (phys : Nat) (d : List Line) (p : Nat),
      paginateAux R C ls phys = some (d, p) →
      ls = d ++ ls.drop d.length ∧
      p = phys + (d.map (fun l => rowsNeeded l C)).sum ∧
      ((phys : Int) ≤ (R : Int) - 1 → (p : Int) ≤ (R : Int) - 1) ∧
      ∀ x rest2, ls = d ++ x :: rest2 →
        ((R : Int) - 1 < (p : Int) + (rowsNeeded x C : Int) ∨
          (R : Int) - 1 ≤ (p : Int)) := by
  intro ls
  induction ls with
  | nil =>
    intro phys d p h
    replace h : (if (phys : Int) < (R : Int) - 1 then
        (none : Option (List Line × Nat)) else some ([], phys)) =
        some (d, p) := h
    split at h
    · exact absurd h (by simp)
    · rename_i hge
      simp only [Option.some.injEq, Prod.mk.injEq] at h
      obtain ⟨h1, h2⟩ := h
      subst h1
      subst h2
      refine ⟨by simp, by simp, fun hp => hp, ?_⟩
      intro x rest2 hx
      exact absurd hx (by simp)
  | cons l rest ih =>
    intro phys d p h
    rcases rest with _ | ⟨r, rs⟩
    · replace h : (if (phys : Int) < (R : Int) - 1 then
          if (phys : Int) + (rowsNeeded l C : Int) ≤ (R : Int) - 1 then
            some ([l], phys + rowsNeeded l C)
          else some ([], phys)
        else some (([] : List Line), phys)) = some (d, p) := h
      split at h
      · rename_i hlt
        split at h
        · rename_i hfit
          simp only [Option.some.injEq, Prod.mk.injEq] at h
          obtain ⟨h1, h2⟩ := h
          subst h1
          subst h2
          refine ⟨by simp, by simp, fun _ => by push_cast at hfit ⊢; omega, ?_⟩
          intro x rest2 hx
          simp only [List.singleton_append, List.cons.injEq] at hx
          exact absurd hx.2 (by simp)
        · rename_i hnofit
          simp only [Option.some.injEq, Prod.mk.injEq] at h
          obtain ⟨h1, h2⟩ := h
          subst h1
          subst h2
          refine ⟨by simp, by simp, fun hp => hp, ?_⟩
          intro x rest2 hx
          simp only [List.nil_append, List.cons.injEq] at hx
          left
          rw [← hx.1]
          omega
      · rename_i hge
        simp only [Option.some.injEq, Prod.mk.injEq] at h
        obtain ⟨h1, h2⟩ := h
        subst h1
        subst h2
        refine ⟨by simp, by simp, fun hp => hp, ?_⟩
        intro x rest2 hx
        right
        omega
    · replace h : (if (phys : Int) < (R : Int) - 1 then
          if (phys : Int) + (rowsNeeded l C : Int) ≤ (R : Int) - 1 then
            (match paginateAux R C (r :: rs) (phys + rowsNeeded l C) with
              | none => (none : Option (List Line × Nat))
              | some (d2, p2) => some (l :: d2, p2))
          else some ([], phys)
        else some (([] : List Line), phys)) = some (d, p) := h
      split at h
      · rename_i hlt
        split at h
        · rename_i hfit
          rcases hrec : paginateAux R C (r :: rs) (phys + rowsNeeded l C) with
            _ | ⟨d2, p2⟩
          · rw [hrec] at h
            exact absurd h (by simp)
          · rw [hrec] at h
            replace h : some (l :: d2, p2) = some (d, p) := h
            simp only [Option.some.injEq, Prod.mk.injEq] at h
            obtain ⟨h1, h2⟩ := h
            subst h1
            subst h2
            obtain ⟨ih1, ih2, ih3, ih4⟩ :=
              ih (phys + rowsNeeded l C) d2 p2 hrec
            refine ⟨?_, ?_, fun _ => ?_, ?_⟩
            · simp only [List.length_cons, List.drop_succ_cons,
                List.cons_append]
              exact congrArg (List.cons l) ih1
            · simp only [List.map_cons, List.sum_cons]
              omega
            · exact ih3 (by push_cast at hfit ⊢; omega)
            · intro x rest2 hx
              simp only [List.cons_append, List.cons.injEq] at hx
              exact ih4 x rest2 hx.2
        · rename_i hnofit
          simp only [Option.some.injEq, Prod.mk.injEq] at h
          obtain ⟨h1, h2⟩ := h
          subst h1
          subst h2
          refine ⟨by simp, by simp, fun hp => hp, ?_⟩
          intro x rest2 hx
          simp only [List.nil_append, List.cons.injEq] at hx
          left
          rw [← hx.1]
          omega
      · rename_i hge
        simp only [Option.some.injEq, Prod.mk.injEq] at h
        obtain ⟨h1, h2⟩ := h
        subst h1
        subst h2
        refine ⟨by simp, by simp, fun hp => hp, ?_⟩
        intro x rest2 hx
        right
        omega

/-- Pagination never walks past the list: on a non-empty store it always
completes. -/
lemma paginateAux_isSome (R C : Nat) :
    ∀ (ls : List Line) (phys : Nat), ls ≠ [] →
      (paginateAux R C ls phys).isSome = true := by
  intro ls
  induction ls with
  | nil => intro phys h; exact absurd rfl h
  | cons l rest ih =>
    intro phys _
    rcases rest with _ | ⟨r, rs⟩
    · show (if (phys : Int) < (R : Int) - 1 then
          if (phys : Int) + (rowsNeeded l C : Int) ≤ (R : Int) - 1 then
            some ([l], phys + rowsNeeded l C)
          else some ([], phys)
        else some (([] : List Line), phys)).isSome = true
      split
      · split
        · simp
        · simp
      · simp
    · show (if (phys : Int) < (R : Int) - 1 then
          if (phys : Int) + (rowsNeeded l C : Int) ≤ (R : Int) - 1 then
            (match paginateAux R C (r :: rs) (phys + rowsNeeded l C) with
              | none => (none : Option (List Line × Nat))
              | some (d2, p2) => some (l :: d2, p2))
          else some ([], phys)
        else some (([] : List Line), phys)).isSome = true
      split
      · split
        · have hs := ih (phys + rowsNeeded l C) (by simp)
          rcases hrec : paginateAux R C (r :: rs) (phys + rowsNeeded l C) with
            _ | ⟨d2, p2⟩
          · rw [hrec] at hs
            simp at hs
          · simp
        · simp
      · simp

lemma paginate_isSome (R C : Nat) (ls : List Line) (h : ls ≠ []) :
    (paginate R C ls).isSome = true :=
  paginateAux_isSome R C ls 0 h

lemma stateOf_eq_some (r : TickResult) (s : State)
    (h : r.stateOf = some s) : ∃ f, r = TickResult.rendered s f := by
  cases r with
  | exited => exact absurd h (by simp [TickResult.stateOf])
  | crashed => exact absurd h (by simp [TickResult.stateOf])
  | rendered s2 f =>
    refine ⟨f, ?_⟩
    simp only [TickResult.stateOf, Option.some.injEq] at h
    rw [h]

/-- What a completed render tells us: only `display_and_exit` can change in
the state, and the frame is the paginated prefix together with the status bar
`HH:MM:SS Lines: <first>-<last>` on row `ws_row`, cursor parked at
`ws_col - 2`. -/
lemma renderPhase_spec (cfg : Config) (now : Nat) (s s2 : State) (f : Frame)
    (h : renderPhase cfg now s = TickResult.rendered s2 f) :
    s2.lines = s.lines ∧ s2.startLine = s.startLine ∧
    s2.paused = s.paused ∧ s2.timeToScroll = s.timeToScroll ∧
    f.statusRow = cfg.rows ∧ f.cursorCol = (cfg.cols : Int) - 2 ∧
    f.statusText = hhmmss now ++ linesLabel ++
      intChars (s2.startLine : Int) ++ '-' ::
      intChars ((s2.startLine : Int) + (f.body.length : Int) - 1) ∧
    ∃ p, paginate cfg.rows cfg.cols s.lines = some (f.body, p) := by
  rcases hp : paginate cfg.rows cfg.cols s.lines with _ | ⟨d, q⟩
  · rw [renderPhase, hp] at h
    exact absurd h (by simp)
  · rw [renderPhase, hp] at h
    simp only [TickResult.rendered.injEq] at h
    obtain ⟨h1, h2⟩ := h
    subst h1
    subst h2
    exact ⟨rfl, rfl, rfl, rfl, rfl, rfl, rfl, q, rfl⟩

/-- A paused tick never touches the countdown, the store, or the line
counter: it goes straight to the redraw. -/
lemma alarmStep_paused (cfg : Config) (now : Nat) (s : State)
    (hp : s.paused = true) :
    alarmStep cfg now s = renderPhase cfg now s := by
  unfold alarmStep
  rw [if_pos hp]

/-- An unpaused tick whose decremented countdown does not trigger a scroll
just re-renders with the decremented countdown. -/
lemma alarmStep_noscroll (cfg : Config) (now : Nat) (s : State)
    (hp : s.paused = false)
    (hc : ¬((s.timeToScroll - 1 = 0 ∧ 1 < s.startLine) ∨
      s.timeToScroll - 1 = -1)) :
    alarmStep cfg now s =
      renderPhase cfg now { s with timeToScroll := s.timeToScroll - 1 } := by
  unfold alarmStep
  rw [if_neg (by simp [hp]), if_neg hc]

/-- A scroll tick with `display_and_exit` latched raises SIGQUIT and the
program terminates. -/
lemma alarmStep_scroll_dae (cfg : Config) (now : Nat) (s : State)
    (hp : s.paused = false)
    (hc : (s.timeToScroll - 1 = 0 ∧ 1 < s.startLine) ∨
      s.timeToScroll - 1 = -1)
    (hd : s.displayAndExit = true) :
    alarmStep cfg now s = TickResult.exited := by
  unfold alarmStep
  rw [if_neg (by simp [hp]), if_pos hc, if_pos hd]

/-- A scroll tick on an empty store dereferences the null head. -/
lemma alarmStep_scroll_nil (cfg : Config) (now : Nat) (s : State)
    (hp : s.paused = false)
    (hc : (s.timeToScroll - 1 = 0 ∧ 1 < s.startLine) ∨
      s.timeToScroll - 1 = -1)
    (hd : s.displayAndExit = false) (hls : s.lines = []) :
    alarmStep cfg now s = TickResult.crashed := by
  unfold alarmStep
  rw [if_neg (by simp [hp]), if_pos hc, if_neg (by simp [hd]), hls]

/-- A scroll tick that pops the last remaining line raises SIGQUIT: end of
file. -/
lemma alarmStep_scroll_last (cfg : Config) (now : Nat) (s : State) (l : Line)
    (hp : s.paused = false)
    (hc : (s.timeToScroll - 1 = 0 ∧ 1 < s.startLine) ∨
      s.timeToScroll - 1 = -1)
    (hd : s.displayAndExit = false) (hls : s.lines = [l]) :
    alarmStep cfg now s = TickResult.exited := by
  unfold alarmStep
  rw [if_neg (by simp [hp]), if_pos hc, if_neg (by simp [hd]), hls]

/-- A scroll tick with at least two lines left pops the front line, advances
`start_line_number`, resets the countdown, and re-renders. -/
lemma alarmStep_scroll (cfg : Config) (now : Nat) (s : State)
    (l r : Line) (rs : List Line)
    (hp : s.paused = false)
    (hc : (s.timeToScroll - 1 = 0 ∧ 1 < s.startLine) ∨
      s.timeToScroll - 1 = -1)
    (hd : s.displayAndExit = false) (hls : s.lines = l :: r :: rs) :
    alarmStep cfg now s =
      renderPhase cfg now
        { s with lines := r :: rs
                 startLine := s.startLine + 1
                 timeToScroll := (cfg.seconds : Int) } := by
  unfold alarmStep
  rw [if_neg (by simp [hp]), if_pos hc, if_neg (by simp [hd]), hls]

/-- Every rendered tick goes through `renderPhase` on some intermediate
state whose `startLine` and `lines` the render then preserves. -/
lemma alarmStep_rendered_src (cfg : Config) (now : Nat) (s s2 : State)
    (f : Frame) (h : alarmStep cfg now s = TickResult.rendered s2 f) :
    ∃ s3, renderPhase cfg now s3 = TickResult.rendered s2 f := by
  by_cases hp : s.paused
  · exact ⟨s, (alarmStep_paused cfg now s hp) ▸ h⟩
  · rw [Bool.not_eq_true] at hp
    by_cases hc : (s.timeToScroll - 1 = 0 ∧ 1 < s.startLine) ∨
      s.timeToScroll - 1 = -1
    · by_cases hd : s.displayAndExit
      · rw [alarmStep_scroll_dae cfg now s hp hc hd] at h
        exact absurd h (by simp)
      · rw [Bool.not_eq_true] at hd
        rcases hls : s.lines with _ | ⟨l, _ | ⟨r, rs⟩⟩
        · rw [alarmStep_scroll_nil cfg now s hp hc hd hls] at h
          exact absurd h (by simp)
        · rw [alarmStep_scroll_last cfg now s l hp hc hd hls] at h
          exact absurd h (by simp)
        · rw [alarmStep_scroll cfg now s l r rs hp hc hd hls] at h
          exact ⟨_, h⟩
    · rw [alarmStep_noscroll cfg now s hp hc] at h
      exact ⟨_, h⟩

/-- Render on a non-empty store always completes, and the state it leaves
differs from its input at most in `display_and_exit`. -/
lemma renderPhase_fields (cfg : Config) (now : Nat) (s : State)
    (h : s.lines ≠ []) :
    (renderPhase cfg now s).stateOf.map State.lines = some s.lines ∧
    (renderPhase cfg now s).stateOf.map State.startLine = some s.startLine ∧
    (renderPhase cfg now s).stateOf.map State.paused = some s.paused ∧
    (renderPhase cfg now s).stateOf.map State.timeToScroll =
      some s.timeToScroll := by
  rcases hq : paginate cfg.rows cfg.cols s.lines with _ | ⟨d, p⟩
  · have hsome := paginate_isSome cfg.rows cfg.cols s.lines h
    rw [hq] at hsome
    simp at hsome
  · unfold renderPhase
    rw [hq]
    exact ⟨rfl, rfl, rfl, rfl⟩

/-- When pagination displays the whole store of a first-frame state
(`start_line_number == 1`), the render latches `display_and_exit`. -/
lemma renderPhase_dae_all (cfg : Config) (now : Nat) (s : State)
    (d : List Line) (p : Nat)
    (hq : paginate cfg.rows cfg.cols s.lines = some (d, p))
    (hall : d.length = s.lines.length) (hstart : s.startLine = 1) :
    (renderPhase cfg now s).stateOf =
      some { s with displayAndExit := true } ∧
    (renderPhase cfg now s).bodyOf = some d := by
  have he : renderPhase cfg now s =
      TickResult.rendered
        { s with displayAndExit :=
            (if (d.length = s.lines.length ∨
                  ((p : Int) = (cfg.rows : Int) - 1 ∧
                    s.lines.length = d.length + 1)) ∧
                s.startLine = 1
              then true else s.displayAndExit) }
        { body := d
          statusRow := cfg.rows
          statusText := hhmmss now ++ linesLabel ++
            intChars (s.startLine : Int) ++ '-' ::
            intChars ((s.startLine : Int) + (d.length : Int) - 1)
          cursorCol := (cfg.cols : Int) - 2 } := by
    unfold renderPhase
    rw [hq]
  constructor
  · rw [he]
    simp only [TickResult.stateOf]
    rw [if_pos ⟨Or.inl hall, hstart⟩]
  · rw [he]
    rfl

/-- The first eight characters a render writes on the status row are the
wall-clock `HH:MM:SS` sampled during that render. -/
lemma take_eight_hhmmss (t : Nat) (r : List Char) :
    (hhmmss t ++ r).take 8 = hhmmss t := rfl

/-- Claim C2 (confirmed): for every frame produced by pagination, the
displayed lines are a prefix of the Line Store taken whole (no line is ever
truncated mid-line: the frame's physical row count is exactly the sum of each
displayed line's full wrapped row count), that total never exceeds
`row_count - 1` (the last row stays reserved for the status bar), and the
first line left out of a frame — if any — is one whose full row count would
not have fit in the remaining budget. -/
theorem claim2_pagination_budget (R C : Nat) (ls d : List Line) (p : Nat)
    (hR : 1 ≤ R) (hC : 1 ≤ C)
    (hwf : ∀ l, l ∈ ls → l.content ≠ [])
    (h : paginate R C ls = some (d, p)) :
    ls = d ++ ls.drop d.length ∧
    p = (d.map (fun l => rowsNeeded l C)).sum ∧
    (p : Int) ≤ (R : Int) - 1 ∧
    ∀ x rest2, ls = d ++ x :: rest2 →
      (R : Int) - 1 < (p : Int) + (rowsNeeded x C : Int) := by
  obtain ⟨h1, h2, h3, h4⟩ := paginateAux_spec R C ls 0 d p h
  have hRi : (1 : Int) ≤ (R : Int) := by exact_mod_cast hR
  have hple : (p : Int) ≤ (R : Int) - 1 := h3 (by omega)
  refine ⟨h1, by simpa using h2, hple, ?_⟩
  intro x rest2 hx
  have hmem : x ∈ ls := by
    rw [hx]
    exact List.mem_append_right _ (List.mem_cons_self x rest2)
  have hxpos : 1 ≤ rowsNeeded x C := rowsNeeded_pos x C hC (hwf x hmem)
  rcases h4 x rest2 hx with h5 | h5
  · exact h5
  · have hxi : (1 : Int) ≤ (rowsNeeded x C : Int) := by exact_mod_cast hxpos
    omega

/-- Witness for C2: on a 3-row, 5-column terminal, a 7-byte line followed by a
2-byte line paginates to just the first line on 2 physical rows, within the
2-row budget. -/
theorem claim2_witness :
    paginate 3 5 [⟨['a', 'a', 'a', 'a', 'a', 'a', '\n']⟩, ⟨['b', '\n']⟩] =
      some ([⟨['a', 'a', 'a', 'a', 'a', 'a', '\n']⟩], 2) ∧
    ((2 : Nat) : Int) ≤ (3 : Int) - 1 :=
  ⟨by decide,
    (claim2_pagination_budget 3 5
      [⟨['a', 'a', 'a', 'a', 'a', 'a', '\n']⟩, ⟨['b', '\n']⟩]
      [⟨['a', 'a', 'a', 'a', 'a', 'a', '\n']⟩] 2
      (by decide) (by decide) (by decide) (by decide)).2.2.1⟩

/-- Counterexample to C3 as stated: the two-character final line `ab` with no
trailing newline appears in a frame on a 5-row, 1-column terminal; it has 2
visible characters, so `ceil(visible / cols) = 2`, yet the code's
`ceil((length - 1) / cols)` charges it only 1 physical row. -/
theorem claim3_cex :
    rowsNeeded ⟨['a', 'b']⟩ 1 = 1 ∧
    visibleCount ⟨['a', 'b']⟩ = 2 ∧
    ceilDiv (visibleCount ⟨['a', 'b']⟩) 1 = 2 ∧
    paginate 5 1 [⟨['a', 'b']⟩] = some ([⟨['a', 'b']⟩], 1) := by decide

/-- Claim C3 (corrected): for every newline-terminated line with at least one
visible character the physical rows consumed equal
`ceil(visible_character_count / column_count)`, and a line consisting of only
a newline consumes exactly 1 row regardless of terminal width; but a final
line without a trailing newline is budgeted `ceil((length - 1) / column_count)`
rows, which undercounts `ceil(visible / column_count)` exactly when its
visible length exceeds 1 and is congruent to 1 modulo the width. -/
theorem claim3_rows_per_line (l : Line) (cols : Nat) (hc : 1 ≤ cols) :
    (l.content.getLast? = some '\n' → 1 ≤ visibleCount l →
      rowsNeeded l cols = ceilDiv (visibleCount l) cols) ∧
    (l.content = ['\n'] → rowsNeeded l cols = 1) := by
  constructor
  · intro hnl hv
    unfold visibleCount at hv ⊢
    rw [if_pos hnl] at hv ⊢
    unfold rowsNeeded ceilDiv
    rw [if_neg (by omega)]
    congr 1
    omega
  · intro he
    unfold rowsNeeded Line.len
    rw [he]
    rfl

/-- Witness for C3: the newline-terminated line `hi` on an 80-column terminal
consumes `ceil(2 / 80) = 1` row. -/
theorem claim3_witness :
    (⟨['h', 'i', '\n']⟩ : Line).content.getLast? = some '\n' ∧
    rowsNeeded ⟨['h', 'i', '\n']⟩ 80 =
      ceilDiv (visibleCount ⟨['h', 'i', '\n']⟩) 80 :=
  ⟨by decide,
    (claim3_rows_per_line ⟨['h', 'i', '\n']⟩ 80 (by decide)).1
      (by decide) (by decide)⟩

/-- Render on an empty store on a usable terminal (at least two rows) is the
null dereference of line 361. -/
lemma renderPhase_crashed (cfg : Config) (now : Nat) (s : State)
    (hls : s.lines = []) (hR : 2 ≤ cfg.rows) :
    renderPhase cfg now s = TickResult.crashed := by
  have hRi : (2 : Int) ≤ (cfg.rows : Int) := by exact_mod_cast hR
  have h1 : paginate cfg.rows cfg.cols s.lines = none := by
    rw [hls]
    show (if (((0 : Nat) : Int)) < (cfg.rows : Int) - 1 then
        (none : Option (List Line × Nat)) else some ([], 0)) = none
    rw [if_pos (by push_cast; omega)]
  unfold renderPhase
  rw [h1]

/-- Claim C10 (confirmed): pagination reads the front line of the Line Store
without an emptiness check, so on a terminal with at least two rows it crashes
on an empty store while it always completes on a non-empty one; and for an
input file with zero lines the very first alarm tick already reaches that
dereference. -/
theorem claim10_empty_store_crash (cfg : Config) (now : Nat)
    (hR : 2 ≤ cfg.rows) (hs : 1 ≤ cfg.seconds) :
    paginate cfg.rows cfg.cols [] = none ∧
    alarmStep cfg now (initState [] cfg.seconds) = TickResult.crashed ∧
    ∀ ls : List Line, ls ≠ [] → (paginate cfg.rows cfg.cols ls).isSome = true := by
  have hRi : (2 : Int) ≤ (cfg.rows : Int) := by exact_mod_cast hR
  have hsi : (1 : Int) ≤ (cfg.seconds : Int) := by exact_mod_cast hs
  refine ⟨?_, ?_, fun ls h => paginate_isSome cfg.rows cfg.cols ls h⟩
  · show (if (((0 : Nat) : Int)) < (cfg.rows : Int) - 1 then
        (none : Option (List Line × Nat)) else some ([], 0)) = none
    rw [if_pos (by push_cast; omega)]
  · have hc : ¬(((initState ([] : List Line) cfg.seconds).timeToScroll - 1 = 0 ∧
        1 < (initState ([] : List Line) cfg.seconds).startLine) ∨
        (initState ([] : List Line) cfg.seconds).timeToScroll - 1 = -1) := by
      simp only [initState]
      rintro (⟨h1, h2⟩ | h1)
      · omega
      · omega
    rw [alarmStep_noscroll cfg now (initState [] cfg.seconds) rfl hc]
    exact renderPhase_crashed cfg now _ rfl hR

/-- Witness for C10: a 5-row terminal with the default 1-second interval
crashes on the first tick of an empty file. -/
theorem claim10_witness :
    alarmStep ⟨5, 2, 1⟩ 0 (initState [] 1) = TickResult.crashed :=
  (claim10_empty_store_crash ⟨5, 2, 1⟩ 0 (by decide) (by decide)).2.1

/-- Claim C4 (confirmed): a scroll event removes exactly the front line of the
Line Store — the remaining store is precisely the old tail, so no line is
skipped or repeated — and advances the 1-based first-displayed-line number by
exactly 1. -/
theorem claim4_scroll_advances_one (cfg : Config) (now : Nat) (s : State)
    (l r : Line) (rs : List Line)
    (hp : s.paused = false) (hls : s.lines = l :: r :: rs)
    (hd : s.displayAndExit = false)
    (hc : (s.timeToScroll - 1 = 0 ∧ 1 < s.startLine) ∨
      s.timeToScroll - 1 = -1) :
    (alarmStep cfg now s).stateOf.map State.lines = some (r :: rs) ∧
    (alarmStep cfg now s).stateOf.map State.startLine =
      some (s.startLine + 1) := by
  rw [alarmStep_scroll cfg now s l r rs hp hc hd hls]
  obtain ⟨f1, f2, _, _⟩ := renderPhase_fields cfg now
    { s with lines := r :: rs
             startLine := s.startLine + 1
             timeToScroll := (cfg.seconds : Int) } (by simp)
  exact ⟨f1, f2⟩

/-- Witness for C4: a scroll tick (countdown hitting 0 past the first line) on
a 3-line store leaves the 2-line tail and start line 4. -/
theorem claim4_witness :
    (alarmStep ⟨5, 10, 2⟩ 0
        ⟨[⟨['a', '\n']⟩, ⟨['b', '\n']⟩, ⟨['c', '\n']⟩], 3, false, false,
          1⟩).stateOf.map State.lines = some [⟨['b', '\n']⟩, ⟨['c', '\n']⟩] :=
  (claim4_scroll_advances_one ⟨5, 10, 2⟩ 0
    ⟨[⟨['a', '\n']⟩, ⟨['b', '\n']⟩, ⟨['c', '\n']⟩], 3, false, false, 1⟩
    ⟨['a', '\n']⟩ ⟨['b', '\n']⟩ [⟨['c', '\n']⟩]
    rfl rfl rfl (by decide)).1

/-- Claim C5 (confirmed): for every configured interval in `[1, 59]` (the
default 1 included), the countdown is reset to exactly that value by every
scroll event. -/
theorem claim5_countdown_reset (cfg : Config) (now : Nat) (s : State)
    (l r : Line) (rs : List Line)
    (hsec1 : 1 ≤ cfg.seconds) (hsec2 : cfg.seconds ≤ 59)
    (hp : s.paused = false) (hls : s.lines = l :: r :: rs)
    (hd : s.displayAndExit = false)
    (hc : (s.timeToScroll - 1 = 0 ∧ 1 < s.startLine) ∨
      s.timeToScroll - 1 = -1) :
    (alarmStep cfg now s).stateOf.map State.timeToScroll =
      some (cfg.seconds : Int) := by
  rw [alarmStep_scroll cfg now s l r rs hp hc hd hls]
  exact (renderPhase_fields cfg now
    { s with lines := r :: rs
             startLine := s.startLine + 1
             timeToScroll := (cfg.seconds : Int) } (by simp)).2.2.2

/-- Witness for C5: after a scroll with `-s 2` the countdown reads exactly
2. -/
theorem claim5_witness :
    (alarmStep ⟨5, 10, 2⟩ 0
        ⟨[⟨['a', '\n']⟩, ⟨['b', '\n']⟩, ⟨['c', '\n']⟩], 3, false, false,
          1⟩).stateOf.map State.timeToScroll = some 2 :=
  claim5_countdown_reset ⟨5, 10, 2⟩ 0
    ⟨[⟨['a', '\n']⟩, ⟨['b', '\n']⟩, ⟨['c', '\n']⟩], 3, false, false, 1⟩
    ⟨['a', '\n']⟩ ⟨['b', '\n']⟩ [⟨['c', '\n']⟩]
    (by decide) (by decide) rfl rfl rfl (by decide)

/-- Counterexample to C6 as stated: on a paused state with countdown 3, the
alarm tick completes a render but leaves the countdown at 3 — the handler
skips the decrement entirely while paused (autoscroll.c line 314 guards
line 316), whereas the claim asserts the alarm re-decrements the countdown on
each tick while paused. -/
theorem claim6_cex :
    (alarmStep ⟨5, 10, 2⟩ 0
        ⟨[⟨['a', '\n']⟩, ⟨['b', '\n']⟩, ⟨['c', '\n']⟩], 1, false, true,
          3⟩).stateOf.map State.timeToScroll = some 3 := by decide

/-- Claim C6 (corrected): while paused, the one-second alarm keeps firing and
every tick still completes a render whose status line begins with the live
wall-clock `HH:MM:SS` of that tick, and pausing stops the scroll (store and
first-line number are untouched); but the countdown is frozen, not
re-decremented, while paused. -/
theorem claim6_paused_tick (cfg : Config) (now : Nat) (s : State)
    (hp : s.paused = true) (hne : s.lines ≠ []) :
    (alarmStep cfg now s).stateOf.map State.timeToScroll =
      some s.timeToScroll ∧
    (alarmStep cfg now s).stateOf.map State.lines = some s.lines ∧
    (alarmStep cfg now s).stateOf.map State.startLine = some s.startLine ∧
    (alarmStep cfg now s).stateOf.map State.paused = some true ∧
    (alarmStep cfg now s).frameOf.map (fun f => f.statusText.take 8) =
      some (hhmmss now) := by
  rw [alarmStep_paused cfg now s hp]
  obtain ⟨f1, f2, f3, f4⟩ := renderPhase_fields cfg now s hne
  refine ⟨f4, f1, f2, by rw [f3, hp], ?_⟩
  rcases hq : paginate cfg.rows cfg.cols s.lines with _ | ⟨d, p⟩
  · have hsome := paginate_isSome cfg.rows cfg.cols s.lines hne
    rw [hq] at hsome
    simp at hsome
  · unfold renderPhase
    rw [hq]
    rfl

/-- Witness for C6: a paused 1-line state with countdown 7 renders at
wall-clock 01:02:03 and keeps countdown 7. -/
theorem claim6_witness :
    (alarmStep ⟨5, 10, 3⟩ 3723
        ⟨[⟨['a', '\n']⟩], 4, false, true, 7⟩).stateOf.map
      State.timeToScroll = some 7 :=
  (claim6_paused_tick ⟨5, 10, 3⟩ 3723
    ⟨[⟨['a', '\n']⟩], 4, false, true, 7⟩ rfl (by decide)).1

/-- Claim C7 (confirmed): the pause handler mutates only the `paused` flag,
and a pause followed by a resume restores a running state exactly, so any
sequence of later alarm ticks — renders, scrolls and exit alike — is
indistinguishable from the uninterrupted run: no line is lost or
duplicated. -/
theorem claim7_pause_resume_noop (cfg : Config) (now fuel : Nat) (s : State)
    (hp : s.paused = false) :
    tstpStep s = { s with paused := true } ∧
    intStep (tstpStep s) = s ∧
    runAlarms cfg now fuel (intStep (tstpStep s)) = runAlarms cfg now fuel s := by
  have h2 : intStep (tstpStep s) = s := by
    rcases s with ⟨a, b, c, d, e⟩
    have hd : d = false := hp
    unfold intStep tstpStep
    rw [hd]
  exact ⟨rfl, h2, by rw [h2]⟩

/-- Witness for C7: pause then resume on a concrete running state is the
identity. -/
theorem claim7_witness :
    intStep (tstpStep ⟨[⟨['a', '\n']⟩], 1, false, false, 1⟩) =
      ⟨[⟨['a', '\n']⟩], 1, false, false, 1⟩ :=
  (claim7_pause_resume_noop ⟨5, 10, 1⟩ 0 0
    ⟨[⟨['a', '\n']⟩], 1, false, false, 1⟩ rfl).2.1

/-- Claim C9 (confirmed): every completed render prints the status bar on the
last terminal row (`ESC[ws_row;1f`), with text
`HH:MM:SS Lines: <first>-<last>` where the time is the wall clock sampled at
render time (the tick's `now`, independent of the countdown), `<first>` is the
first displayed line number of the resulting state, `<last>` is `<first>` plus
the number of file lines in the frame minus 1, and the cursor is then parked
at column `ws_col - 2`, two columns from the right edge. -/
theorem claim9_status_bar (cfg : Config) (now : Nat) (s s2 : State) (f : Frame)
    (h : alarmStep cfg now s = TickResult.rendered s2 f) :
    f.statusRow = cfg.rows ∧
    f.cursorCol = (cfg.cols : Int) - 2 ∧
    f.statusText = hhmmss now ++ linesLabel ++
      intChars (s2.startLine : Int) ++ '-' ::
      intChars ((s2.startLine : Int) + (f.body.length : Int) - 1) := by
  obtain ⟨s3, h3⟩ := alarmStep_rendered_src cfg now s s2 f h
  obtain ⟨_, _, _, _, h5, h6, h7, _⟩ := renderPhase_spec cfg now s3 s2 f h3
  exact ⟨h5, h6, h7⟩

/-- Witness for C9: the first tick on a two-line file in a 3-row, 5-column
terminal renders status text `00:00:00 Lines: 1-2` on row 3, cursor at
column 3. -/
theorem claim9_witness :
    alarmStep ⟨3, 5, 1⟩ 0 (initState [⟨['a', '\n']⟩, ⟨['b', '\n']⟩] 1) =
      TickResult.rendered
        ⟨[⟨['a', '\n']⟩, ⟨['b', '\n']⟩], 1, true, false, 0⟩
        ⟨[⟨['a', '\n']⟩, ⟨['b', '\n']⟩], 3,
          ['0', '0', ':', '0', '0', ':', '0', '0', ' ', 'L', 'i', 'n', 'e',
            's', ':', ' ', '1', '-', '2'], 3⟩ ∧
    (⟨[⟨['a', '\n']⟩, ⟨['b', '\n']⟩], 3,
      ['0', '0', ':', '0', '0', ':', '0', '0', ' ', 'L', 'i', 'n', 'e',
        's', ':', ' ', '1', '-', '2'], 3⟩ : Frame).statusRow = 3 :=
  ⟨by decide,
    (claim9_status_bar ⟨3, 5, 1⟩ 0 (initState [⟨['a', '\n']⟩, ⟨['b', '\n']⟩] 1)
      ⟨[⟨['a', '\n']⟩, ⟨['b', '\n']⟩], 1, true, false, 0⟩
      ⟨[⟨['a', '\n']⟩, ⟨['b', '\n']⟩], 3,
        ['0', '0', ':', '0', '0', ':', '0', '0', ' ', 'L', 'i', 'n', 'e',
          's', ':', ' ', '1', '-', '2'], 3⟩ (by decide)).1⟩

/-- Counterexample to C1 as stated: a one-line file whose single line fills 1
of the 4 available rows (so the whole file fits in the first frame without
filling the screen), viewed with `-s 2`: the run completes two renders before
terminating, not exactly one — the display-and-exit latch only takes effect
when the countdown next expires, and until then every alarm tick redraws the
same frame. -/
theorem claim1_cex :
    (paginate 5 10 [⟨['h', 'i', '\n']⟩]).map
      (fun dp => (dp.1.length, dp.2)) = some (1, 1) ∧
    runAlarms ⟨5, 10, 2⟩ 0 10 (initState [⟨['h', 'i', '\n']⟩] 2) =
      (2, some true) := by decide

/-- Claim C1 (corrected): for every input file whose lines all fit in the
first frame without filling the screen, under the default 1-second interval
the first alarm tick renders the whole file once, latches display-and-exit
without touching the store or the line counter, and the next tick terminates
the program — so the viewer renders exactly once and never performs a scroll
event.  (With a configured interval above 1 the same frame is re-rendered on
each tick until the countdown expires, as the counterexample shows.) -/
theorem claim1_short_file_display_and_exit (R C : Nat) (ls d : List Line)
    (p : Nat) (now now2 : Nat)
    (h : paginate R C ls = some (d, p))
    (hall : d.length = ls.length)
    (hfit : (p : Int) < (R : Int) - 1) :
    (alarmStep ⟨R, C, 1⟩ now (initState ls 1)).stateOf =
      some ⟨ls, 1, true, false, 0⟩ ∧
    (alarmStep ⟨R, C, 1⟩ now (initState ls 1)).bodyOf = some ls ∧
    alarmStep ⟨R, C, 1⟩ now2 ⟨ls, 1, true, false, 0⟩ = TickResult.exited ∧
    runAlarms ⟨R, C, 1⟩ now 2 (initState ls 1) = (1, some true) := by
  have hdls : d = ls := by
    obtain ⟨h1, _, _, _⟩ := paginateAux_spec R C ls 0 d p h
    rw [hall, List.drop_length, List.append_nil] at h1
    exact h1.symm
  rw [hdls] at h
  have hc1 : ¬(((initState ls 1).timeToScroll - 1 = 0 ∧
      1 < (initState ls 1).startLine) ∨
      (initState ls 1).timeToScroll - 1 = -1) := by
    simp only [initState]
    rintro (⟨h1, h2⟩ | h1)
    · omega
    · omega
  have e1 : alarmStep ⟨R, C, 1⟩ now (initState ls 1) =
      renderPhase ⟨R, C, 1⟩ now
        { initState ls 1 with
            timeToScroll := (initState ls 1).timeToScroll - 1 } :=
    alarmStep_noscroll ⟨R, C, 1⟩ now (initState ls 1) rfl hc1
  have hq : paginate (⟨R, C, 1⟩ : Config).rows (⟨R, C, 1⟩ : Config).cols
      ({ initState ls 1 with
          timeToScroll := (initState ls 1).timeToScroll - 1 } : State).lines =
      some (ls, p) := h
  obtain ⟨c1, c2⟩ := renderPhase_dae_all ⟨R, C, 1⟩ now
    { initState ls 1 with
        timeToScroll := (initState ls 1).timeToScroll - 1 } ls p hq rfl rfl
  have e3 : alarmStep ⟨R, C, 1⟩ now2 (⟨ls, 1, true, false, 0⟩ : State) =
      TickResult.exited :=
    alarmStep_scroll_dae ⟨R, C, 1⟩ now2 ⟨ls, 1, true, false, 0⟩ rfl
      (Or.inr rfl) rfl
  have e3now : alarmStep ⟨R, C, 1⟩ now (⟨ls, 1, true, false, 0⟩ : State) =
      TickResult.exited :=
    alarmStep_scroll_dae ⟨R, C, 1⟩ now ⟨ls, 1, true, false, 0⟩ rfl
      (Or.inr rfl) rfl
  have c1f : (alarmStep ⟨R, C, 1⟩ now (initState ls 1)).stateOf =
      some ⟨ls, 1, true, false, 0⟩ := by
    rw [e1]
    exact c1
  refine ⟨c1f, by rw [e1]; exact c2, e3, ?_⟩
  obtain ⟨fA, hfA⟩ := stateOf_eq_some _ _ c1f
  show (match alarmStep ⟨R, C, 1⟩ now (initState ls 1) with
    | TickResult.exited => ((0 : Nat), some true)
    | TickResult.crashed => (0, some false)
    | TickResult.rendered s2 _ =>
      let r := runAlarms ⟨R, C, 1⟩ now 1 s2
      (r.1 + 1, r.2)) = (1, some true)
  rw [hfA]
  show (let r := (match alarmStep ⟨R, C, 1⟩ now
      (⟨ls, 1, true, false, 0⟩ : State) with
    | TickResult.exited => ((0 : Nat), some true)
    | TickResult.crashed => (0, some false)
    | TickResult.rendered s2 _ =>
      let r2 := runAlarms ⟨R, C, 1⟩ now 0 s2
      (r2.1 + 1, r2.2));
    (r.1 + 1, r.2)) = (1, some true)
  rw [e3now]

/-- Witness for C1: a one-line file on a 5-row terminal with the default
interval renders once and exits at the second tick without scrolling. -/
theorem claim1_witness :
    alarmStep ⟨5, 10, 1⟩ 0 (⟨[⟨['h', 'i', '\n']⟩], 1, true, false, 0⟩ : Autoscroll.State) =
      TickResult.exited ∧
    runAlarms ⟨5, 10, 1⟩ 0 2 (initState [⟨['h', 'i', '\n']⟩] 1) =
      (1, some true) :=
  ⟨(claim1_short_file_display_and_exit 5 10 [⟨['h', 'i', '\n']⟩]
      [⟨['h', 'i', '\n']⟩] 1 0 0 (by decide) (by decide) (by decide)).2.2.1,
    (claim1_short_file_display_and_exit 5 10 [⟨['h', 'i', '\n']⟩]
      [⟨['h', 'i', '\n']⟩] 1 0 0 (by decide) (by decide) (by decide)).2.2.2⟩

/-- Claim C8 (confirmed): `-s` accepts any integer in `[1, 59]` and its
absence defaults the interval to 1; a missing file path, malformed `-s`
value, out-of-range `-s` value (0 or 60), duplicate `-s`, an unknown option,
and a `-s` with no argument are each fatal usage errors, and every such exit
happens in the argument phase, strictly before `fopen` is reached
(`usageExit` versus `opensFile`). -/
theorem claim8_argument_validation (v : Nat) (h1 : 1 ≤ v) (h2 : v ≤ 59) :
    mainArgPhase [['-', 's'], natChars v, ['f']] =
      MainResult.opensFile ['f'] (v : Int) ∧
    mainArgPhase [['f']] = MainResult.opensFile ['f'] 1 ∧
    mainArgPhase [['-', 's'], ['0'], ['f']] =
      MainResult.usageExit ArgError.outOfRange ∧
    mainArgPhase [['-', 's'], ['6', '0'], ['f']] =
      MainResult.usageExit ArgError.outOfRange ∧
    mainArgPhase [['-', 's'], ['5'], ['-', 's'], ['6'], ['f']] =
      MainResult.usageExit ArgError.duplicateS ∧
    mainArgPhase [['-', 'x'], ['f']] =
      MainResult.usageExit ArgError.unknownOpt ∧
    mainArgPhase [] = MainResult.usageExit ArgError.missingPath ∧
    mainArgPhase [['-', 's'], ['a', 'b'], ['f']] =
      MainResult.usageExit ArgError.nonInteger ∧
    mainArgPhase [['-', 's']] = MainResult.usageExit ArgError.missingArg := by
  refine ⟨?_, by decide, by decide, by decide, by decide, by decide,
    by decide, by decide, by decide⟩
  interval_cases v <;> decide

/-- Witness for C8: `-s 5 f` opens `f` with a 5-second interval. -/
theorem claim8_witness :
    mainArgPhase [['-', 's'], natChars 5, ['f']] =
      MainResult.opensFile ['f'] 5 :=
  (claim8_argument_validation 5 (by decide) (by decide)).1

end Autoscroll
